import Mathlib

/-!
Verification of the candidate ranking engine (`recommender_model.py`).

The core is `RecommenderModel.rank`: it filters candidates lacking skills,
synthesizes a profile text per candidate, obtains embedding-based similarity
scores, combines them with rule-based skill/experience scores under fixed
weights, applies a multiplicative project penalty, rounds every field to two
decimal places (times 100) and returns the list sorted by `final_score`
descending (Python's `sorted` with `reverse=True`, a stable sort).

The embedding capability (`SentenceTransformer.encode`) and the similarity
primitive (`sklearn cosine_similarity`) are external collaborators; they are
modelled as parameters of the engine (`embed`, `cos`), matching the contract
the code relies on.  Python floats are idealized as `ℚ`; `round(x, 2)` is
modelled as round-half-to-even at two decimals, which is Python 3 `round` on
exact values.
-/

namespace CandidateRanking

/-- A candidate record as validated by the service boundary (`main.py`'s
`Candidate` pydantic model): `id` plus optional `skills`, `experience_years`
and `projects`.  `none` models both an absent key and an explicit `null`. -/
structure Candidate where
  id : Option String
  skills : Option (List String)
  experience_years : Option Int
  projects : Option (List String)
deriving DecidableEq, Repr

/-- One entry of the list `rank` returns (the per-candidate result dict). -/
structure RankResult where
  candidate_id : String
  job_desc_score : ℚ
  job_title_score : ℚ
  skill_score : ℚ
  experience_score : ℚ
  final_score : ℚ
deriving DecidableEq, Repr

/-- The engine: the four scoring weights stored by `__init__` together with
the external embedding capability (`self.encoder` via `_embed`) and the
external similarity primitive (`cosine_similarity`). -/
structure RecommenderModel where
  job_desc_weight : ℚ
  job_title_weight : ℚ
  skill_weight : ℚ
  experience_weight : ℚ
  embed : String → List ℚ
  cos : List ℚ → List ℚ → ℚ

/-- Round-half-to-even to an integer: Python 3 `round` on exact values. -/
def roundHalfEven (q : ℚ) : ℤ :=
  let f := ⌊q⌋
  let r := q - (f : ℚ)
  if r < 1/2 then f
  else if 1/2 < r then f + 1
  else if f % 2 = 0 then f else f + 1

/-- Python `round(x, 2)`. -/
def pyRound2 (x : ℚ) : ℚ := (roundHalfEven (x * 100) : ℚ) / 100

/-- Python `str.lower()`: lowercase each character (`String.toLower`,
spelled out on the character list). -/
def pyLower (s : String) : String := String.mk (s.data.map Char.toLower)

/-- Accumulating splitter behind `pySplitWs`: gathers maximal runs of
non-whitespace characters. -/
def splitWsAux : List Char → List Char → List (List Char)
  | [], acc => if acc.isEmpty then [] else [acc.reverse]
  | c :: cs, acc =>
    if c.isWhitespace then
      if acc.isEmpty then splitWsAux cs []
      else acc.reverse :: splitWsAux cs []
    else splitWsAux cs (c :: acc)

/-- Python `str.split()` with no separator: split on whitespace runs,
dropping empty tokens. -/
def pySplitWs (s : String) : List String :=
  (splitWsAux s.data []).map String.mk

/-- `_safe_list` applied to a typed optional list: missing value becomes
the empty list. -/
def safeList (v : Option (List String)) : List String := v.getD []

/-- `_candidate_to_text`: "Skills: ..." always, "Projects: ..." only when
non-empty, "Experience: n years" only when present, joined by ". ". -/
def candidate_to_text (c : Candidate) : String :=
  let skills := safeList c.skills
  let projects := safeList c.projects
  let parts := ["Skills: " ++ String.intercalate ", " skills]
  let parts := if projects ≠ [] then
    parts ++ ["Projects: " ++ String.intercalate ", " projects] else parts
  let parts := match c.experience_years with
    | some e => parts ++ ["Experience: " ++ toString e ++ " years"]
    | none => parts
  String.intercalate ". " parts

/-- `_skill_score`: |job-description words ∩ lowercased skills| ÷ |skill set|
(Python sets modelled as `Finset String`). -/
def skill_score (job_desc : String) (skills : List String) : ℚ :=
  let job_words : Finset String := (pySplitWs (pyLower job_desc)).toFinset
  let skill_words : Finset String := (skills.map pyLower).toFinset
  ((job_words ∩ skill_words).card : ℚ) / (skill_words.card : ℚ)

/-- Value of a run of decimal digits, as Python `int(...)`. -/
def digitsVal (ds : List Char) : Nat :=
  ds.foldl (fun n c => 10 * n + (c.toNat - '0'.toNat)) 0

/-- Does the character list start with the literal `years`? -/
def startsWithYears : List Char → Bool
  | 'y' :: 'e' :: 'a' :: 'r' :: 's' :: _ => true
  | _ => false

/-- `re.search(r"(\d+)\s+years", s)`: leftmost occurrence of a digit run
followed by at least one whitespace character and the literal `years`;
returns the captured integer.  Greedy `\d+`/`\s+` cannot backtrack usefully
here (a shorter digit run is followed by a digit, not whitespace, and a
shorter whitespace run is followed by whitespace, not `y`), so the match at
a position is exactly: maximal digit run, maximal whitespace run (non-empty),
then `years`. -/
def findYears : List Char → Option Nat
  | [] => none
  | c :: rest =>
    if c.isDigit then
      let ds := List.takeWhile Char.isDigit (c :: rest)
      let afterD := List.dropWhile Char.isDigit (c :: rest)
      let ws := afterD.takeWhile Char.isWhitespace
      let afterW := afterD.dropWhile Char.isWhitespace
      if ws ≠ [] ∧ startsWithYears afterW then some (digitsVal ds)
      else findYears rest
    else findYears rest

/-- `_experience_score`: 0.3 when experience is missing; otherwise 0.7 when
the lowercased job description contains no "<integer> years" pattern or the
required years are 0; otherwise `min(exp / required, 1.0)`. -/
def experience_score (job_desc : String) (exp : Option Int) : ℚ :=
  match exp with
  | none => 3/10
  | some e =>
    match findYears (pyLower job_desc).data with
    | none => 7/10
    | some required =>
      if required = 0 then 7/10
      else min ((e : ℚ) / (required : ℚ)) 1

/-- The mandatory skills check `if not skills: continue`: a candidate passes
iff its `skills` value is truthy, i.e. a non-empty list. -/
def eligible (c : Candidate) : Bool := safeList c.skills ≠ []

/-- `project_penalty = 0.85 if not projects else 1.0` (after `_safe_list`). -/
def projectPenalty (c : Candidate) : ℚ :=
  if safeList c.projects = [] then 85/100 else 1

/-- The weighted sum of the four sub-scores. -/
def weightedSum (m : RecommenderModel)
    (desc_similarity title_similarity sk ex : ℚ) : ℚ :=
  m.job_desc_weight * desc_similarity + m.job_title_weight * title_similarity +
    m.skill_weight * sk + m.experience_weight * ex

/-- The unrounded composite `final_score` of one candidate: weighted sum of
the four sub-scores times the project penalty. -/
def compositeScore (m : RecommenderModel) (jtEmb jdEmb : List ℚ)
    (job_description : String) (c : Candidate) : ℚ :=
  let candEmb := m.embed (candidate_to_text c)
  weightedSum m (m.cos jdEmb candEmb) (m.cos jtEmb candEmb)
      (skill_score job_description (safeList c.skills))
      (experience_score job_description c.experience_years)
    * projectPenalty c

/-- The loop body of `rank` for one eligible candidate: compute similarities
and rule-based scores and build the result record, every field scaled by 100
and rounded to two decimals. -/
def scoreCandidate (m : RecommenderModel) (jtEmb jdEmb : List ℚ)
    (job_description : String) (c : Candidate) : RankResult :=
  let candEmb := m.embed (candidate_to_text c)
  let title_similarity := m.cos jtEmb candEmb
  let desc_similarity := m.cos jdEmb candEmb
  let sk := skill_score job_description (safeList c.skills)
  let ex := experience_score job_description c.experience_years
  { candidate_id := c.id.getD "UNKNOWN"
    job_desc_score := pyRound2 (desc_similarity * 100)
    job_title_score := pyRound2 (title_similarity * 100)
    skill_score := pyRound2 (sk * 100)
    experience_score := pyRound2 (ex * 100)
    final_score := pyRound2 (compositeScore m jtEmb jdEmb job_description c * 100) }

/-- The comparison `sorted(results, key=lambda x: x["final_score"],
reverse=True)` sorts by: `a` may precede `b` iff `a`'s final score is at
least `b`'s. -/
def descLe (a b : RankResult) : Bool := decide (b.final_score ≤ a.final_score)

/-- The scored list in input order: the loop of `rank` appends one result per
eligible candidate, in the order candidates arrive. -/
def scoredList (m : RecommenderModel) (job_title job_description : String)
    (candidates : List Candidate) : List RankResult :=
  (candidates.filter eligible).map
    (scoreCandidate m (m.embed job_title) (m.embed job_description) job_description)

/-- `rank`: embed the title and description once, score each eligible
candidate, and return the results sorted by `final_score` descending
(Python's `sorted` is a stable sort, modelled by `List.mergeSort`). -/
def rank (m : RecommenderModel) (job_title job_description : String)
    (candidates : List Candidate) : List RankResult :=
  (scoredList m job_title job_description candidates).mergeSort descLe

/-- `__init__`: store the weights and the capability after asserting
`abs(total - 1.0) < 0.01`; the assertion failure is a configuration error. -/
def RecommenderModel.init (job_desc_weight job_title_weight skill_weight
    experience_weight : ℚ) (embed : String → List ℚ)
    (cos : List ℚ → List ℚ → ℚ) : Except String RecommenderModel :=
  let total := job_desc_weight + job_title_weight + skill_weight + experience_weight
  if |total - 1| < 1/100 then
    .ok { job_desc_weight := job_desc_weight, job_title_weight := job_title_weight,
          skill_weight := skill_weight, experience_weight := experience_weight,
          embed := embed, cos := cos }
  else .error "Weights must sum to 1.0"

/-! ### Helper lemmas -/

theorem descLe_trans : ∀ a b c : RankResult,
    descLe a b = true → descLe b c = true → descLe a c = true := by
  intro a b c hab hbc
  simp only [descLe, decide_eq_true_eq] at *
  exact le_trans hbc hab

theorem descLe_total : ∀ a b : RankResult, (descLe a b || descLe b a) = true := by
  intro a b
  simp only [descLe, Bool.or_eq_true, decide_eq_true_eq]
  exact le_total b.final_score a.final_score

theorem mem_rank_iff (m : RecommenderModel) (jt jd : String)
    (cands : List Candidate) (r : RankResult) :
    r ∈ rank m jt jd cands ↔ ∃ c ∈ cands.filter eligible,
      scoreCandidate m (m.embed jt) (m.embed jd) jd c = r := by
  rw [rank, List.mem_mergeSort, scoredList, List.mem_map]

theorem eligible_iff (c : Candidate) :
    eligible c = true ↔ ∃ s, c.skills = some s ∧ s ≠ [] := by
  cases hs : c.skills with
  | none => simp [eligible, safeList, hs]
  | some s => simp [eligible, safeList, hs]

theorem scoreCandidate_candidate_id (m : RecommenderModel) (jtEmb jdEmb : List ℚ)
    (jd : String) (c : Candidate) :
    (scoreCandidate m jtEmb jdEmb jd c).candidate_id = c.id.getD "UNKNOWN" := rfl

/-! ### Claim theorems -/

/-- C1: every result `rank` returns has a `candidate_id` coming from an input
candidate whose `skills` field is a non-empty list, and the output has
exactly one entry per such eligible candidate, so candidates with missing or
empty skills contribute nothing (and `rank` is a total function, so no error
is raised and no placeholder entry is produced). -/
theorem rank_excludes_candidates_without_skills (m : RecommenderModel)
    (jt jd : String) (cands : List Candidate) :
    (∀ r ∈ rank m jt jd cands, ∃ c ∈ cands,
      (∃ s, c.skills = some s ∧ s ≠ []) ∧ r.candidate_id = c.id.getD "UNKNOWN") ∧
    (rank m jt jd cands).length = (cands.filter eligible).length := by
  constructor
  · intro r hr
    obtain ⟨c, hc, hcr⟩ := (mem_rank_iff m jt jd cands r).mp hr
    rw [List.mem_filter] at hc
    exact ⟨c, hc.1, (eligible_iff c).mp hc.2,
      by rw [← hcr, scoreCandidate_candidate_id]⟩
  · rw [rank, List.length_mergeSort, scoredList, List.length_map]

def witModel : RecommenderModel :=
  { job_desc_weight := 6/10, job_title_weight := 15/100, skill_weight := 15/100,
    experience_weight := 1/10, embed := fun _ => [1], cos := fun _ _ => 1/2 }

def witCandA : Candidate := ⟨some "A", some ["python"], some 2, some ["proj"]⟩

def witCandB : Candidate := ⟨some "B", none, none, none⟩

theorem rank_excludes_candidates_without_skills_witness :
    ∃ c ∈ [witCandA, witCandB], (∃ s, c.skills = some s ∧ s ≠ []) ∧
      (scoreCandidate witModel (witModel.embed "T") (witModel.embed "D") "D"
        witCandA).candidate_id = c.id.getD "UNKNOWN" :=
  (rank_excludes_candidates_without_skills witModel "T" "D" [witCandA, witCandB]).1
    (scoreCandidate witModel (witModel.embed "T") (witModel.embed "D") "D" witCandA)
    (List.mem_mergeSort.mpr (List.mem_singleton_self _))

/-- C2: engine construction fails with the configuration error when the four
weights do not sum to 1 within tolerance 0.01, and every accepted
configuration stores weights summing to 1 ± 0.01 (the check happens exactly
once, in `RecommenderModel.init`; `rank` never re-examines the weights). -/
theorem init_validates_weight_sum (wd wt ws we : ℚ) (embed : String → List ℚ)
    (cos : List ℚ → List ℚ → ℚ) :
    (1/100 < |wd + wt + ws + we - 1| →
      RecommenderModel.init wd wt ws we embed cos = .error "Weights must sum to 1.0") ∧
    (∀ m, RecommenderModel.init wd wt ws we embed cos = .ok m →
      |m.job_desc_weight + m.job_title_weight + m.skill_weight +
        m.experience_weight - 1| ≤ 1/100) := by
  constructor
  · intro h
    rw [RecommenderModel.init, if_neg (by linarith)]
  · intro m hm
    rw [RecommenderModel.init] at hm
    by_cases h : |wd + wt + ws + we - 1| < 1/100
    · rw [if_pos h] at hm
      cases hm
      exact le_of_lt h
    · rw [if_neg h] at hm
      cases hm

theorem init_validates_weight_sum_witness :
    RecommenderModel.init (1 : ℚ) 1 0 0 (fun _ => [1]) (fun _ _ => 0) =
      .error "Weights must sum to 1.0" ∧
    |(6/10 : ℚ) + 15/100 + 15/100 + 1/10 - 1| ≤ 1/100 := by
  constructor
  · exact (init_validates_weight_sum 1 1 0 0 (fun _ => [1]) (fun _ _ => 0)).1
      (by norm_num)
  · exact (init_validates_weight_sum (6/10) (15/100) (15/100) (1/10)
      (fun _ => [1]) (fun _ _ => 0)).2
      { job_desc_weight := 6/10, job_title_weight := 15/100, skill_weight := 15/100,
        experience_weight := 1/10, embed := fun _ => [1], cos := fun _ _ => 0 }
      (by rw [RecommenderModel.init, if_pos (by norm_num)])

/-- C3: the list returned by `rank` is sorted by `final_score` descending:
the score is monotonically non-increasing along the output. -/
theorem rank_sorted_by_final_score_descending (m : RecommenderModel)
    (jt jd : String) (cands : List Candidate) :
    (rank m jt jd cands).Pairwise (fun a b => b.final_score ≤ a.final_score) := by
  have h := List.sorted_mergeSort descLe_trans descLe_total
    (scoredList m jt jd cands)
  exact h.imp (fun hab => by
    simpa only [descLe, decide_eq_true_eq] using hab)

/-- C10: a candidate that passes the skills filter but has no `id` field is
still scored and returned, with `candidate_id` reported as the literal
string `UNKNOWN` (`candidate.get("id", "UNKNOWN")`). -/
theorem rank_reports_unknown_for_missing_id (m : RecommenderModel)
    (jt jd : String) (pre post : List Candidate) (c : Candidate)
    (hid : c.id = none) (he : eligible c = true) :
    ∃ r ∈ rank m jt jd (pre ++ c :: post), r.candidate_id = "UNKNOWN" := by
  refine ⟨scoreCandidate m (m.embed jt) (m.embed jd) jd c, ?_, ?_⟩
  · rw [mem_rank_iff]
    exact ⟨c, List.mem_filter.mpr
      ⟨List.mem_append_right _ (List.mem_cons_self _ _), he⟩, rfl⟩
  · rw [scoreCandidate_candidate_id, hid]
    rfl

def witNoId : Candidate := ⟨none, some ["python"], none, none⟩

theorem rank_reports_unknown_for_missing_id_witness :
    ∃ r ∈ rank witModel "T" "D" ([] ++ witNoId :: []), r.candidate_id = "UNKNOWN" :=
  rank_reports_unknown_for_missing_id witModel "T" "D" [] [] witNoId rfl rfl

/-- C4: experience scoring — 0.3 when `experience_years` is absent (so the
output field is 30.00); otherwise 0.7 when the case-insensitive search of
the job description for "<integer> years" finds nothing or finds a
required-years value of 0; otherwise `min(candidate_years / required_years,
1.0)`. -/
theorem experience_score_cases (jd : String) (e : Int) (req : Nat) :
    experience_score jd none = 3/10 ∧
    (findYears (pyLower jd).data = none → experience_score jd (some e) = 7/10) ∧
    (findYears (pyLower jd).data = some 0 → experience_score jd (some e) = 7/10) ∧
    (findYears (pyLower jd).data = some req → req ≠ 0 →
      experience_score jd (some e) = min ((e : ℚ) / (req : ℚ)) 1) ∧
    (∀ (m : RecommenderModel) (jtEmb jdEmb : List ℚ) (c : Candidate),
      c.experience_years = none →
      (scoreCandidate m jtEmb jdEmb jd c).experience_score = 30) := by
  refine ⟨rfl, ?_, ?_, ?_, ?_⟩
  · intro h
    simp [experience_score, h]
  · intro h
    simp [experience_score, h]
  · intro h hreq
    simp [experience_score, h, hreq]
  · intro m jtEmb jdEmb c hc
    show pyRound2 (experience_score jd c.experience_years * 100) = 30
    rw [hc]
    show pyRound2 (3/10 * 100) = 30
    norm_num [pyRound2, roundHalfEven]

theorem experience_score_cases_witness :
    experience_score "no requirement stated" (some 5) = 7/10 ∧
    experience_score "0 years needed" (some 5) = 7/10 ∧
    experience_score "we need 4 years" (some 1) = min ((1 : ℚ) / (4 : ℚ)) 1 ∧
    (scoreCandidate witModel (witModel.embed "T") (witModel.embed "D") "D"
      witNoId).experience_score = 30 := by
  refine ⟨?_, ?_, ?_, ?_⟩
  · exact (experience_score_cases "no requirement stated" 5 0).2.1 rfl
  · exact (experience_score_cases "0 years needed" 5 0).2.2.1 rfl
  · exact (experience_score_cases "we need 4 years" 1 4).2.2.2.1 rfl (by decide)
  · exact (experience_score_cases "D" 0 0).2.2.2.2 witModel _ _ witNoId rfl

/-- The skill-score formula as the spec words it: the number of distinct
lowercased candidate skills occurring among the lowercased whitespace
tokens of the job description, divided by the number of distinct lowercased
skills. -/
def skillScoreSpec (job_desc : String) (skills : List String) : ℚ :=
  (((skills.map pyLower).dedup.filter
      (fun s => decide (s ∈ pySplitWs (pyLower job_desc)))).length : ℚ) /
    ((skills.map pyLower).dedup.length : ℚ)

theorem skill_score_eq_spec (jd : String) (skills : List String) :
    skill_score jd skills = skillScoreSpec jd skills := by
  rw [skill_score, skillScoreSpec]
  have hnum : ((pySplitWs (pyLower jd)).toFinset ∩ (skills.map pyLower).toFinset).card =
      ((skills.map pyLower).dedup.filter
        (fun s => decide (s ∈ pySplitWs (pyLower jd)))).length := by
    have hnd : ((skills.map pyLower).dedup.filter
        (fun s => decide (s ∈ pySplitWs (pyLower jd)))).Nodup :=
      (List.nodup_dedup _).filter _
    have hdt : (skills.map pyLower).dedup.toFinset = (skills.map pyLower).toFinset :=
      Finset.ext (fun a => by simp [List.mem_toFinset, List.mem_dedup])
    rw [← List.toFinset_card_of_nodup hnd, List.toFinset_filter, hdt]
    rw [Finset.filter_congr (q := fun s => s ∈ (pySplitWs (pyLower jd)).toFinset)
      (fun x _ => by simp)]
    rw [Finset.filter_mem_eq_inter, Finset.inter_comm]
  rw [hnum, List.card_toFinset]

/-- C8: the skill score is exactly |lowercased whitespace tokens of the job
description ∩ lowercased candidate skills| ÷ |lowercased candidate skill
set|, and the output field of a candidate with a non-empty skills list is
that ratio, scaled by 100 and rounded. -/
theorem skill_score_is_set_overlap_ratio (jd : String) (skills : List String)
    (m : RecommenderModel) (jtEmb jdEmb : List ℚ) (c : Candidate)
    (ss : List String) (hss : c.skills = some ss) (_hne : ss ≠ []) :
    skill_score jd skills = skillScoreSpec jd skills ∧
    (scoreCandidate m jtEmb jdEmb jd c).skill_score =
      pyRound2 (skillScoreSpec jd ss * 100) := by
  refine ⟨skill_score_eq_spec jd skills, ?_⟩
  show pyRound2 (skill_score jd (safeList c.skills) * 100) = _
  rw [hss]
  show pyRound2 (skill_score jd ss * 100) = _
  rw [skill_score_eq_spec]

theorem skill_score_is_set_overlap_ratio_witness :
    skill_score "We need Python and SQL" ["python", "sql", "java"] =
      skillScoreSpec "We need Python and SQL" ["python", "sql", "java"] ∧
    (scoreCandidate witModel (witModel.embed "T")
        (witModel.embed "We need Python and SQL") "We need Python and SQL"
        witCandA).skill_score =
      pyRound2 (skillScoreSpec "We need Python and SQL" ["python"] * 100) :=
  skill_score_is_set_overlap_ratio "We need Python and SQL"
    ["python", "sql", "java"] witModel _ _ witCandA ["python"] rfl (by decide)

/-- C9: the descending sort is stable with respect to input order and keys
on the rounded `final_score` field: for every score value `k`, the output
entries whose (rounded) `final_score` equals `k` are exactly the scored
entries with that value, in the order the candidates arrived — so two
composites that round to the same two-decimal value are ordered by input
position. -/
theorem rank_stable_on_tied_final_scores (m : RecommenderModel)
    (jt jd : String) (cands : List Candidate) (k : ℚ) :
    (rank m jt jd cands).filter (fun r => decide (r.final_score = k)) =
      (scoredList m jt jd cands).filter (fun r => decide (r.final_score = k)) := by
  have hpair : ((scoredList m jt jd cands).filter
      (fun r => decide (r.final_score = k))).Pairwise
      (fun a b => descLe a b = true) := by
    apply List.pairwise_of_forall_mem_list
    intro a ha b hb
    have ha' : a.final_score = k := by
      simpa using (List.mem_filter.mp ha).2
    have hb' : b.final_score = k := by
      simpa using (List.mem_filter.mp hb).2
    simp [descLe, ha', hb']
  have hsub : ((scoredList m jt jd cands).filter
      (fun r => decide (r.final_score = k))).Sublist
      ((scoredList m jt jd cands).mergeSort descLe) :=
    List.sublist_mergeSort descLe_trans descLe_total hpair
      (List.filter_sublist _)
  have h1 := hsub.filter (fun r => decide (r.final_score = k))
  rw [List.filter_filter] at h1
  simp only [Bool.and_self] at h1
  have hperm := (List.mergeSort_perm (scoredList m jt jd cands) descLe).filter
    (fun r => decide (r.final_score = k))
  exact (h1.eq_of_length hperm.length_eq.symm).symm

/-- C5 (amended): the project penalty is a multiplicative 0.85 derating of
the candidate's own weighted sub-score sum, not an additive term; and the
candidate without projects scores exactly 0.85× the composite of the
otherwise-identical candidate with projects whenever the similarity stage
assigns both synthesized profile texts equal title and description
similarities.  (Unconditionally the two composites differ, because the
profile text of the candidate with projects contains an extra
"Projects: ..." segment and so embeds differently —
see the counterexample.) -/
theorem project_penalty_multiplicative (m : RecommenderModel) (jt jd : String)
    (cP cN : Candidate)
    (_hid : cN.id = cP.id) (hsk : cN.skills = cP.skills)
    (hexp : cN.experience_years = cP.experience_years)
    (hNp : safeList cN.projects = []) (hPp : safeList cP.projects ≠ [])
    (hT : m.cos (m.embed jt) (m.embed (candidate_to_text cN)) =
          m.cos (m.embed jt) (m.embed (candidate_to_text cP)))
    (hD : m.cos (m.embed jd) (m.embed (candidate_to_text cN)) =
          m.cos (m.embed jd) (m.embed (candidate_to_text cP))) :
    (∀ c : Candidate, safeList c.projects = [] →
      compositeScore m (m.embed jt) (m.embed jd) jd c =
        85/100 * weightedSum m
          (m.cos (m.embed jd) (m.embed (candidate_to_text c)))
          (m.cos (m.embed jt) (m.embed (candidate_to_text c)))
          (skill_score jd (safeList c.skills))
          (experience_score jd c.experience_years)) ∧
    compositeScore m (m.embed jt) (m.embed jd) jd cN =
      85/100 * compositeScore m (m.embed jt) (m.embed jd) jd cP := by
  constructor
  · intro c hc
    simp only [compositeScore, projectPenalty, hc, if_pos]
    ring
  · simp only [compositeScore, projectPenalty, if_pos hNp, if_neg hPp,
      hsk, hexp, hT, hD]
    ring

def witCandANoProj : Candidate := ⟨some "A", some ["python"], some 2, none⟩

theorem project_penalty_multiplicative_witness :
    compositeScore witModel (witModel.embed "T") (witModel.embed "D") "D"
        witCandANoProj =
      85/100 * compositeScore witModel (witModel.embed "T")
        (witModel.embed "D") "D" witCandA :=
  (project_penalty_multiplicative witModel "T" "D" witCandA witCandANoProj
    rfl rfl rfl rfl (by decide) rfl rfl).2

def cxModel : RecommenderModel :=
  { job_desc_weight := 6/10, job_title_weight := 15/100, skill_weight := 15/100,
    experience_weight := 1/10, embed := fun s => [(s.length : ℚ)],
    cos := fun a b => a.headD 0 * b.headD 0 / 10000 }

def cxWith : Candidate := ⟨some "A", some ["python"], some 2, some ["P1"]⟩

def cxWithout : Candidate := ⟨some "A", some ["python"], some 2, none⟩

/-- C5 counterexample: two candidates identical in every field except that
one has no projects; with an explicit (deterministic, text-sensitive)
embedding capability, the candidate without projects does NOT score 0.85×
the composite of the candidate with projects, because their synthesized
profile texts differ and so do their similarity scores. -/
theorem project_penalty_exact_ratio_counterexample :
    (cxWithout.id = cxWith.id ∧ cxWithout.skills = cxWith.skills ∧
      cxWithout.experience_years = cxWith.experience_years ∧
      safeList cxWithout.projects = [] ∧ safeList cxWith.projects ≠ []) ∧
    compositeScore cxModel (cxModel.embed "Engineer")
        (cxModel.embed "We need 2 years of python")
        "We need 2 years of python" cxWithout ≠
      85/100 * compositeScore cxModel (cxModel.embed "Engineer")
        (cxModel.embed "We need 2 years of python")
        "We need 2 years of python" cxWith := by
  refine ⟨⟨rfl, rfl, rfl, rfl, by decide⟩, ?_⟩
  have e1 : candidate_to_text cxWithout = "Skills: python. Experience: 2 years" := rfl
  have e2 : candidate_to_text cxWith =
    "Skills: python. Projects: P1. Experience: 2 years" := rfl
  have l1 : ("Skills: python. Experience: 2 years" : String).length = 35 := rfl
  have l2 : ("Skills: python. Projects: P1. Experience: 2 years" : String).length = 49 := rfl
  have l3 : ("Engineer" : String).length = 8 := rfl
  have l4 : ("We need 2 years of python" : String).length = 25 := rfl
  have hs : skill_score "We need 2 years of python" ["python"] = 1 := by
    show ((((pySplitWs (pyLower "We need 2 years of python")).toFinset ∩
        (["python"].map pyLower).toFinset).card : ℚ) /
        (((["python"] : List String).map pyLower).toFinset.card : ℚ)) = 1
    have c1 : ((pySplitWs (pyLower "We need 2 years of python")).toFinset ∩
        (["python"].map pyLower).toFinset).card = 1 := rfl
    have c2 : ((["python"] : List String).map pyLower).toFinset.card = 1 := rfl
    rw [c1, c2]
    norm_num
  have he : experience_score "We need 2 years of python" (some 2) = 1 := by
    have hf : findYears (pyLower "We need 2 years of python").data = some 2 := rfl
    simp [experience_score, hf]
  simp only [compositeScore, weightedSum, projectPenalty, cxModel, e1, e2,
    l1, l2, l3, l4, hs, he]
  simp only [cxWithout, cxWith, safeList, Option.getD, List.headD]
  rw [hs, he]
  norm_num

theorem skill_score_nonneg (jd : String) (ss : List String) :
    0 ≤ skill_score jd ss := by
  rw [skill_score]
  positivity

theorem skill_score_le_one (jd : String) (ss : List String) :
    skill_score jd ss ≤ 1 := by
  rw [skill_score]
  by_cases h : ((ss.map pyLower).toFinset.card : ℚ) = 0
  · rw [h, div_zero]
    norm_num
  · have hpos : (0 : ℚ) < ((ss.map pyLower).toFinset.card : ℚ) :=
      lt_of_le_of_ne (by positivity) (Ne.symm h)
    rw [div_le_one hpos]
    exact_mod_cast Finset.card_le_card Finset.inter_subset_right

theorem experience_score_le_one (jd : String) (exp : Option Int) :
    experience_score jd exp ≤ 1 := by
  cases exp with
  | none => norm_num [experience_score]
  | some e =>
    cases hf : findYears (pyLower jd).data with
    | none => norm_num [experience_score, hf]
    | some r =>
      simp only [experience_score, hf]
      split_ifs
      · norm_num
      · exact min_le_right _ _

theorem experience_score_nonneg (jd : String) (exp : Option Int)
    (h : ∀ e : Int, exp = some e → 0 ≤ e) : 0 ≤ experience_score jd exp := by
  cases exp with
  | none => norm_num [experience_score]
  | some e =>
    have he : (0 : ℚ) ≤ (e : ℚ) := by exact_mod_cast h e rfl
    cases hf : findYears (pyLower jd).data with
    | none => norm_num [experience_score, hf]
    | some r =>
      simp only [experience_score, hf]
      split_ifs
      · norm_num
      · exact le_min (by positivity) (by norm_num)

theorem roundHalfEven_nonneg {q : ℚ} (h : 0 ≤ q) : 0 ≤ roundHalfEven q := by
  simp only [roundHalfEven]
  have hf : (0 : ℤ) ≤ ⌊q⌋ := Int.floor_nonneg.mpr h
  split_ifs <;> omega

theorem roundHalfEven_le {q : ℚ} {n : ℤ} (h : q ≤ (n : ℚ)) :
    roundHalfEven q ≤ n := by
  simp only [roundHalfEven]
  have hfl : ⌊q⌋ ≤ n := by
    have := Int.floor_le_floor h
    rwa [Int.floor_intCast] at this
  have hfq : (⌊q⌋ : ℚ) ≤ q := Int.floor_le q
  split_ifs with h1 h2 h3
  · exact hfl
  · have hlt : (⌊q⌋ : ℚ) < (n : ℚ) := by linarith
    have := Int.cast_lt.mp hlt
    omega
  · exact hfl
  · have hlt : (⌊q⌋ : ℚ) < (n : ℚ) := by
      have hr : ¬ (q - (⌊q⌋ : ℚ) < 1/2) := h1
      push_neg at hr
      linarith
    have := Int.cast_lt.mp hlt
    omega

theorem pyRound2_bounds {x : ℚ} (h0 : 0 ≤ x) (h100 : x ≤ 100) :
    0 ≤ pyRound2 x ∧ pyRound2 x ≤ 100 ∧ ∃ k : ℤ, pyRound2 x = (k : ℚ) / 100 := by
  have hn : (0 : ℤ) ≤ roundHalfEven (x * 100) :=
    roundHalfEven_nonneg (by positivity)
  have hle : roundHalfEven (x * 100) ≤ (10000 : ℤ) := by
    apply roundHalfEven_le
    push_cast
    linarith
  refine ⟨?_, ?_, ⟨roundHalfEven (x * 100), rfl⟩⟩
  · rw [pyRound2]
    have : (0 : ℚ) ≤ (roundHalfEven (x * 100) : ℚ) := by exact_mod_cast hn
    positivity
  · rw [pyRound2, div_le_iff₀ (by norm_num : (0:ℚ) < 100)]
    have : ((roundHalfEven (x * 100) : ℤ) : ℚ) ≤ (10000 : ℚ) := by exact_mod_cast hle
    linarith

theorem compositeScore_bounds (m : RecommenderModel) (jtEmb jdEmb : List ℚ)
    (jd : String) (c : Candidate)
    (hwd : 0 ≤ m.job_desc_weight) (hwt : 0 ≤ m.job_title_weight)
    (hws : 0 ≤ m.skill_weight) (hwe : 0 ≤ m.experience_weight)
    (hsum : m.job_desc_weight + m.job_title_weight + m.skill_weight +
      m.experience_weight = 1)
    (hcos : ∀ v w, 0 ≤ m.cos v w ∧ m.cos v w ≤ 1)
    (hexp : ∀ e : Int, c.experience_years = some e → 0 ≤ e) :
    0 ≤ compositeScore m jtEmb jdEmb jd c ∧
      compositeScore m jtEmb jdEmb jd c ≤ 1 := by
  have hd := hcos jdEmb (m.embed (candidate_to_text c))
  have ht := hcos jtEmb (m.embed (candidate_to_text c))
  have hsk0 := skill_score_nonneg jd (safeList c.skills)
  have hsk1 := skill_score_le_one jd (safeList c.skills)
  have hex0 := experience_score_nonneg jd c.experience_years hexp
  have hex1 := experience_score_le_one jd c.experience_years
  have hws0 : 0 ≤ weightedSum m (m.cos jdEmb (m.embed (candidate_to_text c)))
      (m.cos jtEmb (m.embed (candidate_to_text c)))
      (skill_score jd (safeList c.skills))
      (experience_score jd c.experience_years) := by
    rw [weightedSum]
    have := mul_nonneg hwd hd.1
    have := mul_nonneg hwt ht.1
    have := mul_nonneg hws hsk0
    have := mul_nonneg hwe hex0
    linarith
  have hws1 : weightedSum m (m.cos jdEmb (m.embed (candidate_to_text c)))
      (m.cos jtEmb (m.embed (candidate_to_text c)))
      (skill_score jd (safeList c.skills))
      (experience_score jd c.experience_years) ≤ 1 := by
    rw [weightedSum]
    have h1 := mul_le_mul_of_nonneg_left hd.2 hwd
    have h2 := mul_le_mul_of_nonneg_left ht.2 hwt
    have h3 := mul_le_mul_of_nonneg_left hsk1 hws
    have h4 := mul_le_mul_of_nonneg_left hex1 hwe
    linarith
  have hp0 : 0 ≤ projectPenalty c := by
    rw [projectPenalty]
    split_ifs <;> norm_num
  have hp1 : projectPenalty c ≤ 1 := by
    rw [projectPenalty]
    split_ifs <;> norm_num
  constructor
  · rw [compositeScore]
    exact mul_nonneg hws0 hp0
  · rw [compositeScore]
    exact mul_le_one₀ hws1 hp0 hp1

/-- C6: with non-negative weights summing to 1, similarity values in [0,1]
and non-negative experience years (so all four sub-scores lie in [0,1]),
each of the five numeric fields of every returned result lies in [0,100]
and is an exact multiple of 0.01 (rounded to two decimal places). -/
theorem rank_output_fields_bounded (m : RecommenderModel) (jt jd : String)
    (cands : List Candidate)
    (hwd : 0 ≤ m.job_desc_weight) (hwt : 0 ≤ m.job_title_weight)
    (hws : 0 ≤ m.skill_weight) (hwe : 0 ≤ m.experience_weight)
    (hsum : m.job_desc_weight + m.job_title_weight + m.skill_weight +
      m.experience_weight = 1)
    (hcos : ∀ v w, 0 ≤ m.cos v w ∧ m.cos v w ≤ 1)
    (hexp : ∀ c ∈ cands, ∀ e : Int, c.experience_years = some e → 0 ≤ e) :
    ∀ r ∈ rank m jt jd cands,
      (0 ≤ r.job_desc_score ∧ r.job_desc_score ≤ 100 ∧
        ∃ k : ℤ, r.job_desc_score = (k : ℚ) / 100) ∧
      (0 ≤ r.job_title_score ∧ r.job_title_score ≤ 100 ∧
        ∃ k : ℤ, r.job_title_score = (k : ℚ) / 100) ∧
      (0 ≤ r.skill_score ∧ r.skill_score ≤ 100 ∧
        ∃ k : ℤ, r.skill_score = (k : ℚ) / 100) ∧
      (0 ≤ r.experience_score ∧ r.experience_score ≤ 100 ∧
        ∃ k : ℤ, r.experience_score = (k : ℚ) / 100) ∧
      (0 ≤ r.final_score ∧ r.final_score ≤ 100 ∧
        ∃ k : ℤ, r.final_score = (k : ℚ) / 100) := by
  intro r hr
  obtain ⟨c, hc, rfl⟩ := (mem_rank_iff m jt jd cands r).mp hr
  have hcmem := (List.mem_filter.mp hc).1
  have hd := hcos (m.embed jd) (m.embed (candidate_to_text c))
  have ht := hcos (m.embed jt) (m.embed (candidate_to_text c))
  have hsk0 := skill_score_nonneg jd (safeList c.skills)
  have hsk1 := skill_score_le_one jd (safeList c.skills)
  have hex0 := experience_score_nonneg jd c.experience_years (hexp c hcmem)
  have hex1 := experience_score_le_one jd c.experience_years
  have hcb := compositeScore_bounds m (m.embed jt) (m.embed jd) jd c
    hwd hwt hws hwe hsum hcos (hexp c hcmem)
  refine ⟨?_, ?_, ?_, ?_, ?_⟩
  · exact pyRound2_bounds (by linarith [hd.1]) (by linarith [hd.2])
  · exact pyRound2_bounds (by linarith [ht.1]) (by linarith [ht.2])
  · exact pyRound2_bounds (by linarith) (by linarith)
  · exact pyRound2_bounds (by linarith) (by linarith)
  · exact pyRound2_bounds (by linarith [hcb.1]) (by linarith [hcb.2])

theorem rank_output_fields_bounded_witness :
    (0 ≤ (scoreCandidate witModel (witModel.embed "T") (witModel.embed "D")
        "D" witCandA).final_score ∧
      (scoreCandidate witModel (witModel.embed "T") (witModel.embed "D")
        "D" witCandA).final_score ≤ 100 ∧
      ∃ k : ℤ, (scoreCandidate witModel (witModel.embed "T")
        (witModel.embed "D") "D" witCandA).final_score = (k : ℚ) / 100) :=
  (rank_output_fields_bounded witModel "T" "D" [witCandA]
    (by norm_num [witModel]) (by norm_num [witModel]) (by norm_num [witModel])
    (by norm_num [witModel]) (by norm_num [witModel])
    (fun v w => by norm_num [witModel])
    (by intro c hc e he
        simp only [List.mem_singleton] at hc
        subst hc
        cases he
        norm_num)
    (scoreCandidate witModel (witModel.embed "T") (witModel.embed "D") "D" witCandA)
    (List.mem_mergeSort.mpr (List.mem_singleton_self _))).2.2.2.2

namespace Dyn

/-- A dynamic (untyped) value as `rank` receives it when called without the
service boundary's validation: Python `None`, a string, an integer or a
list. -/
inductive PyVal where
  | vNone
  | vStr (s : String)
  | vInt (n : Int)
  | vList (xs : List PyVal)

/-- Python truthiness for the values above. -/
def PyVal.truthy : PyVal → Bool
  | .vNone => false
  | .vStr s => s ≠ ""
  | .vInt n => n ≠ 0
  | .vList xs => !xs.isEmpty

/-- An untyped candidate record; a `none` field models an absent key. -/
structure Candidate where
  id : Option PyVal
  skills : Option PyVal
  experience_years : Option PyVal
  projects : Option PyVal

/-- `candidate.get(key)`: absent keys read as `None`. -/
def getF (v : Option PyVal) : PyVal := v.getD .vNone

/-- `_safe_list` on a dynamic value: kept when it is a list, else `[]`. -/
def safe_list : PyVal → List PyVal
  | .vList xs => xs
  | _ => []

/-- `_safe_int` on a dynamic value: kept when it is an integer, else
`None`. -/
def safe_int : PyVal → Option Int
  | .vInt n => some n
  | _ => none

/-- `", ".join(xs)` requires every element to be a string; Python raises a
TypeError otherwise. -/
def joinStrings : List PyVal → Except String (List String)
  | [] => .ok []
  | .vStr s :: rest => do
      let tl ← joinStrings rest
      pure (s :: tl)
  | _ :: _ => .error "TypeError"

/-- `_candidate_to_text` on an untyped record; the `", ".join` calls raise
when a list element is not a string. -/
def candidate_to_text (c : Candidate) : Except String String := do
  let skills := safe_list (getF c.skills)
  let projects := safe_list (getF c.projects)
  let experience := safe_int (getF c.experience_years)
  let sk ← joinStrings skills
  let parts := ["Skills: " ++ String.intercalate ", " sk]
  let parts ← if projects.isEmpty then pure parts else do
      let pj ← joinStrings projects
      pure (parts ++ ["Projects: " ++ String.intercalate ", " pj])
  let parts := match experience with
    | some e => parts ++ ["Experience: " ++ toString e ++ " years"]
    | none => parts
  pure (String.intercalate ". " parts)

/-- Elements produced by iterating a list inside
`set(s.lower() for s in skills)`: each must be a string, otherwise
`.lower()` raises an AttributeError. -/
def elemStrings : List PyVal → Except String (List String)
  | [] => .ok []
  | .vStr s :: rest => do
      let tl ← elemStrings rest
      pure (s :: tl)
  | _ :: _ => .error "AttributeError"

/-- Iterating the raw `skills` value: a list yields its elements, a string
yields its characters, anything else is not iterable. -/
def iterStrings : PyVal → Except String (List String)
  | .vList xs => elemStrings xs
  | .vStr s => .ok (s.data.map fun ch => String.mk [ch])
  | _ => .error "TypeError"

/-- `_skill_score` on the raw skills value `rank` passes it (line 202 hands
over `candidate.get("skills")` unsanitized). -/
def skill_score (job_desc : String) (skills : PyVal) : Except String ℚ := do
  let ss ← iterStrings skills
  let job_words : Finset String := (pySplitWs (pyLower job_desc)).toFinset
  let skill_words : Finset String := (ss.map pyLower).toFinset
  if skill_words.card = 0 then .error "ZeroDivisionError"
  else pure (((job_words ∩ skill_words).card : ℚ) / (skill_words.card : ℚ))

/-- `_experience_score` on the raw experience value `rank` passes it: only
`None` takes the missing-data branch; any other non-integer value reaches
`exp / required` and raises a TypeError whenever the job description states
a non-zero year requirement. -/
def experience_score (job_desc : String) (exp : PyVal) : Except String ℚ :=
  match exp with
  | .vNone => .ok (3/10)
  | v =>
    match findYears (pyLower job_desc).data with
    | none => .ok (7/10)
    | some required =>
      if required = 0 then .ok (7/10)
      else match v with
        | .vInt e => .ok (min ((e : ℚ) / (required : ℚ)) 1)
        | _ => .error "TypeError"

/-- One result entry; `candidate_id` is whatever value the record stored
under `id` (or the string `UNKNOWN`). -/
structure RankResult where
  candidate_id : PyVal
  job_desc_score : ℚ
  job_title_score : ℚ
  skill_score : ℚ
  experience_score : ℚ
  final_score : ℚ

def descLe (a b : RankResult) : Bool := decide (b.final_score ≤ a.final_score)

/-- The candidate loop of `rank` on untyped records, in source order: read
`id`, test `skills` truthiness, coerce `projects`, synthesize the profile
text, embed, take similarities, then the skill and experience scores; an
exception anywhere aborts the whole call. -/
def rankLoop (m : RecommenderModel) (jtEmb jdEmb : List ℚ)
    (job_description : String) :
    List Candidate → Except String (List RankResult)
  | [] => .ok []
  | c :: cs =>
    let cid := c.id.getD (.vStr "UNKNOWN")
    if (getF c.skills).truthy then do
      let projects := safe_list (getF c.projects)
      let text ← candidate_to_text c
      let candEmb := m.embed text
      let title_similarity := m.cos jtEmb candEmb
      let desc_similarity := m.cos jdEmb candEmb
      let sk ← skill_score job_description (getF c.skills)
      let ex ← experience_score job_description (getF c.experience_years)
      let penalty : ℚ := if projects.isEmpty then 85/100 else 1
      let fs := (m.job_desc_weight * desc_similarity +
        m.job_title_weight * title_similarity + m.skill_weight * sk +
        m.experience_weight * ex) * penalty
      let rest ← rankLoop m jtEmb jdEmb job_description cs
      pure ({ candidate_id := cid,
              job_desc_score := pyRound2 (desc_similarity * 100),
              job_title_score := pyRound2 (title_similarity * 100),
              skill_score := pyRound2 (sk * 100),
              experience_score := pyRound2 (ex * 100),
              final_score := pyRound2 (fs * 100) } :: rest)
    else rankLoop m jtEmb jdEmb job_description cs

/-- `rank` on untyped records: score every candidate, then sort; an
exception raised while scoring propagates uncaught. -/
def rank (m : RecommenderModel) (job_title job_description : String)
    (cands : List Candidate) : Except String (List RankResult) := do
  let rs ← rankLoop m (m.embed job_title) (m.embed job_description)
    job_description cands
  pure (rs.mergeSort descLe)

end Dyn

/-- A candidate whose `experience_years` holds the string "three": a
malformed optional field that, per the spec, should be defensively coerced
to absent. -/
def dynBadExperience : Dyn.Candidate :=
  { id := some (.vStr "c1"), skills := some (.vList [.vStr "Python"]),
    experience_years := some (.vStr "three"), projects := none }

/-- C7 (code bug): `rank` passes the raw `experience_years` to
`_experience_score` without `_safe_int`, so a candidate with the
non-integer value "three" makes `exp / required` raise a TypeError as soon
as the job description states a year requirement — the engine does raise on
a malformed candidate field, contradicting the defensive-coercion
contract. -/
theorem rank_raises_on_noninteger_experience :
    Dyn.rank witModel "Engineer" "Requires 2 years of experience."
      [dynBadExperience] = .error "TypeError" := rfl

end CandidateRanking
